import Mathlib

/-!
Verification development for the Photon end-to-end-encryption vault.

The definitions below are a shallow embedding of the repository's core:
* `src/lib/crypto` (the second document of `src/lib/firebase.ts`):
  base64 helpers `u8ToB64` / `b64ToU8`, the AES-GCM packing layer
  `encryptWithAES` / `decryptWithAES`, the deterministic salt
  `getSaltForUser` (SHA-256 of the email truncated to 16 bytes), and the
  ML-KEM wrappers (modelled abstractly, since the spec treats the KEM and
  AEAD primitives as audited black boxes).
* the `AuthProvider` session logic (the decoy-mode revision embedded in
  `src/components/core/ProtectedRoute.tsx`, whose older sibling is
  `src/context/AuthContext.tsx`): `login`, `logout`, `changePassword`,
  `decapAndSaveKey`, `encapAndSaveKey`, `getChatKey`.

Bytes are modelled as `Nat` values `< 256` (JS `Uint8Array` entries),
strings as Lean `String`/`List Char`.  Keyed, randomized primitives
(AES-GCM, ML-KEM, PBKDF2) are parameters of the model; deterministic
encodings (base64 via `btoa`/`atob`, UTF-8 via `TextEncoder`/`TextDecoder`,
SHA-256 via `crypto.subtle.digest`) are implemented concretely.
External collaborator calls (Firestore, Firebase auth) are oracles whose
outcomes are supplied by environment records, and each operation returns
the list of external/crypto effects it performed, in order.
-/

namespace Photon

/-! ### Base64 (`u8ToB64` / `b64ToU8` in `src/lib/crypto`)

`u8ToB64` builds a binary string from the bytes and calls `window.btoa`;
`b64ToU8` calls `window.atob`.  We implement standard base64 with `=`
padding directly on byte lists.  `b64ToU8` returns `none` where `atob`
would throw on malformed input. -/

def b64Alphabet : List Char :=
  "ABCDEFGHIJKLMNOPQRSTUVWXYZabcdefghijklmnopqrstuvwxyz0123456789+/".data

def b64Char (n : Nat) : Char := b64Alphabet.getD n 'A'

def b64Val (c : Char) : Option Nat := b64Alphabet.indexOf? c

def padChar : Char := '='

def colonChar : Char := ':'

def u8ToB64 : List Nat → List Char
  | [] => []
  | [a] => [b64Char (a / 4), b64Char (a % 4 * 16), padChar, padChar]
  | [a, b] => [b64Char (a / 4), b64Char (a % 4 * 16 + b / 16), b64Char (b % 16 * 4), padChar]
  | a :: b :: c :: rest =>
    b64Char (a / 4) :: b64Char (a % 4 * 16 + b / 16) :: b64Char (b % 16 * 4 + c / 64) ::
      b64Char (c % 64) :: u8ToB64 rest

def b64ToU8 : List Char → Option (List Nat)
  | [] => some []
  | c0 :: c1 :: c2 :: c3 :: rest =>
    if c2 = padChar ∧ c3 = padChar ∧ rest = [] then
      match b64Val c0, b64Val c1 with
      | some v0, some v1 => some [v0 * 4 + v1 / 16]
      | _, _ => none
    else if c3 = padChar ∧ rest = [] then
      match b64Val c0, b64Val c1, b64Val c2 with
      | some v0, some v1, some v2 => some [v0 * 4 + v1 / 16, v1 % 16 * 16 + v2 / 4]
      | _, _, _ => none
    else
      match b64Val c0, b64Val c1, b64Val c2, b64Val c3, b64ToU8 rest with
      | some v0, some v1, some v2, some v3, some tail =>
        some ([v0 * 4 + v1 / 16, v1 % 16 * 16 + v2 / 4, v2 % 4 * 64 + v3] ++ tail)
      | _, _, _, _, _ => none
  | _ => none

theorem b64Val_b64Char : ∀ n < 64, b64Val (b64Char n) = some n := by decide

theorem b64Char_ne_pad : ∀ n, b64Char n ≠ padChar := by
  intro n
  by_cases h : n < 64
  · revert n h
    decide
  · have hlen : b64Alphabet.length = 64 := by decide
    unfold b64Char
    rw [List.getD_eq_default]
    · decide
    · omega

theorem b64Char_ne_colon : ∀ n, b64Char n ≠ colonChar := by
  intro n
  by_cases h : n < 64
  · revert n h
    decide
  · have hlen : b64Alphabet.length = 64 := by decide
    unfold b64Char
    rw [List.getD_eq_default]
    · decide
    · omega

theorem pad_ne_colon : padChar ≠ colonChar := by decide

theorem u8ToB64_no_colon : ∀ bs, ∀ c ∈ u8ToB64 bs, c ≠ colonChar := by
  intro bs
  induction bs using u8ToB64.induct with
  | case1 => intro c hc; cases hc
  | case2 a =>
    intro c hc
    simp only [u8ToB64, List.mem_cons, List.not_mem_nil, or_false] at hc
    rcases hc with h | h | h | h <;> subst h
    · exact b64Char_ne_colon _
    · exact b64Char_ne_colon _
    · exact pad_ne_colon
    · exact pad_ne_colon
  | case3 a b =>
    intro c hc
    simp only [u8ToB64, List.mem_cons, List.not_mem_nil, or_false] at hc
    rcases hc with h | h | h | h <;> subst h
    · exact b64Char_ne_colon _
    · exact b64Char_ne_colon _
    · exact b64Char_ne_colon _
    · exact pad_ne_colon
  | case4 a b c rest ih =>
    intro x hx
    simp only [u8ToB64, List.mem_cons] at hx
    rcases hx with h | h | h | h | h
    · subst h; exact b64Char_ne_colon _
    · subst h; exact b64Char_ne_colon _
    · subst h; exact b64Char_ne_colon _
    · subst h; exact b64Char_ne_colon _
    · exact ih x h

theorem b64ToU8_pad2 (c0 c1 : Char) (v0 v1 : Nat)
    (h0 : b64Val c0 = some v0) (h1 : b64Val c1 = some v1) :
    b64ToU8 [c0, c1, padChar, padChar] = some [v0 * 4 + v1 / 16] := by
  simp [b64ToU8, h0, h1]

theorem b64ToU8_pad1 (c0 c1 c2 : Char) (v0 v1 v2 : Nat)
    (h0 : b64Val c0 = some v0) (h1 : b64Val c1 = some v1) (h2 : b64Val c2 = some v2)
    (hne : c2 ≠ padChar) :
    b64ToU8 [c0, c1, c2, padChar] = some [v0 * 4 + v1 / 16, v1 % 16 * 16 + v2 / 4] := by
  simp [b64ToU8, h0, h1, h2, hne]

theorem b64ToU8_full (c0 c1 c2 c3 : Char) (rest : List Char) (v0 v1 v2 v3 : Nat) (tail : List Nat)
    (h0 : b64Val c0 = some v0) (h1 : b64Val c1 = some v1) (h2 : b64Val c2 = some v2)
    (h3 : b64Val c3 = some v3) (htail : b64ToU8 rest = some tail) (hne : c3 ≠ padChar) :
    b64ToU8 (c0 :: c1 :: c2 :: c3 :: rest) =
      some ([v0 * 4 + v1 / 16, v1 % 16 * 16 + v2 / 4, v2 % 4 * 64 + v3] ++ tail) := by
  simp [b64ToU8, h0, h1, h2, h3, htail, hne]

theorem b64_roundtrip : ∀ bs, (∀ b ∈ bs, b < 256) → b64ToU8 (u8ToB64 bs) = some bs := by
  intro bs
  induction bs using u8ToB64.induct with
  | case1 => intro _; rfl
  | case2 a =>
    intro hb
    have ha : a < 256 := hb a (by simp)
    have h0 : b64Val (b64Char (a / 4)) = some (a / 4) := b64Val_b64Char _ (by omega)
    have h1 : b64Val (b64Char (a % 4 * 16)) = some (a % 4 * 16) := by
      refine b64Val_b64Char _ ?_
      have := Nat.mod_lt a (y := 4) (by omega)
      omega
    rw [show u8ToB64 [a] = [b64Char (a / 4), b64Char (a % 4 * 16), padChar, padChar] from rfl,
      b64ToU8_pad2 _ _ _ _ h0 h1]
    have e1 : a / 4 * 4 + a % 4 * 16 / 16 = a := by omega
    rw [e1]
  | case3 a b =>
    intro hb
    have ha : a < 256 := hb a (by simp)
    have hbb : b < 256 := hb b (by simp)
    have h0 : b64Val (b64Char (a / 4)) = some (a / 4) := b64Val_b64Char _ (by omega)
    have h1 : b64Val (b64Char (a % 4 * 16 + b / 16)) = some (a % 4 * 16 + b / 16) := by
      refine b64Val_b64Char _ ?_
      have := Nat.mod_lt a (y := 4) (by omega)
      omega
    have h2 : b64Val (b64Char (b % 16 * 4)) = some (b % 16 * 4) := by
      refine b64Val_b64Char _ ?_
      have := Nat.mod_lt b (y := 16) (by omega)
      omega
    rw [show u8ToB64 [a, b] = [b64Char (a / 4), b64Char (a % 4 * 16 + b / 16),
        b64Char (b % 16 * 4), padChar] from rfl,
      b64ToU8_pad1 _ _ _ _ _ _ h0 h1 h2 (b64Char_ne_pad _)]
    have e1 : a / 4 * 4 + (a % 4 * 16 + b / 16) / 16 = a := by omega
    have e2 : (a % 4 * 16 + b / 16) % 16 * 16 + b % 16 * 4 / 4 = b := by omega
    rw [e1, e2]
  | case4 a b c rest ih =>
    intro hb
    have ha : a < 256 := hb a (by simp)
    have hbb : b < 256 := hb b (by simp)
    have hc : c < 256 := hb c (by simp)
    have h0 : b64Val (b64Char (a / 4)) = some (a / 4) := b64Val_b64Char _ (by omega)
    have h1 : b64Val (b64Char (a % 4 * 16 + b / 16)) = some (a % 4 * 16 + b / 16) := by
      refine b64Val_b64Char _ ?_
      have := Nat.mod_lt a (y := 4) (by omega)
      omega
    have h2 : b64Val (b64Char (b % 16 * 4 + c / 64)) = some (b % 16 * 4 + c / 64) := by
      refine b64Val_b64Char _ ?_
      have := Nat.mod_lt b (y := 16) (by omega)
      omega
    have h3 : b64Val (b64Char (c % 64)) = some (c % 64) := by
      refine b64Val_b64Char _ ?_
      have := Nat.mod_lt c (y := 64) (by omega)
      omega
    have htail : b64ToU8 (u8ToB64 rest) = some rest := by
      refine ih ?_
      intro x hx
      exact hb x (by simp [hx])
    rw [show u8ToB64 (a :: b :: c :: rest) = b64Char (a / 4) :: b64Char (a % 4 * 16 + b / 16) ::
        b64Char (b % 16 * 4 + c / 64) :: b64Char (c % 64) :: u8ToB64 rest from rfl,
      b64ToU8_full _ _ _ _ _ _ _ _ _ _ h0 h1 h2 h3 htail (b64Char_ne_pad _)]
    have e1 : a / 4 * 4 + (a % 4 * 16 + b / 16) / 16 = a := by omega
    have e2 : (a % 4 * 16 + b / 16) % 16 * 16 + (b % 16 * 4 + c / 64) / 4 = b := by omega
    have e3 : (b % 16 * 4 + c / 64) % 4 * 64 + c % 64 = c := by omega
    rw [e1, e2, e3]
    rfl

/-! ### Splitting on `:` (`encryptedData.split(':')` in `decryptWithAES`) -/

def splitOnColon : List Char → List (List Char)
  | [] => [[]]
  | c :: rest =>
    if c = colonChar then [] :: splitOnColon rest
    else
      match splitOnColon rest with
      | [] => [[c]]
      | first :: others => (c :: first) :: others

theorem splitOnColon_ne_nil : ∀ s, splitOnColon s ≠ [] := by
  intro s
  induction s with
  | nil => simp [splitOnColon]
  | cons c rest ih =>
    simp only [splitOnColon]
    split
    · simp
    · split
      · simp
      · simp

theorem splitOnColon_no_colon : ∀ s, (∀ c ∈ s, c ≠ colonChar) → splitOnColon s = [s] := by
  intro s
  induction s with
  | nil => intro _; rfl
  | cons c rest ih =>
    intro h
    have hc : c ≠ colonChar := h c (by simp)
    have hrest : splitOnColon rest = [rest] := ih (fun x hx => h x (by simp [hx]))
    simp only [splitOnColon, if_neg hc, hrest]

theorem splitOnColon_append : ∀ s1 s2, (∀ c ∈ s1, c ≠ colonChar) →
    splitOnColon (s1 ++ colonChar :: s2) = s1 :: splitOnColon s2 := by
  intro s1
  induction s1 with
  | nil =>
    intro s2 _
    simp [splitOnColon]
  | cons c rest ih =>
    intro s2 h
    have hc : c ≠ colonChar := h c (by simp)
    have hrest := ih s2 (fun x hx => h x (by simp [hx]))
    simp only [List.cons_append, splitOnColon, if_neg hc, List.append_eq, hrest]

theorem splitOnColon_two : ∀ s1 s2, (∀ c ∈ s1, c ≠ colonChar) → (∀ c ∈ s2, c ≠ colonChar) →
    splitOnColon (s1 ++ colonChar :: s2) = [s1, s2] := by
  intro s1 s2 h1 h2
  rw [splitOnColon_append s1 s2 h1, splitOnColon_no_colon s2 h2]

/-! ### UTF-8 (`TextEncoder().encode` / `TextDecoder().decode`)

Standard UTF-8: code points below 0x80 take one byte, below 0x800 two,
below 0x10000 three, otherwise four.  The decoder emits U+FFFD for
malformed input as `TextDecoder` does in its default replacement mode
(the exact resynchronisation on malformed input is simplified; the
theorems only decode valid encodings). -/

def utf8EncodeNat (n : Nat) : List Nat :=
  if n < 128 then [n]
  else if n < 2048 then [192 + n / 64, 128 + n % 64]
  else if n < 65536 then [224 + n / 4096, 128 + n / 64 % 64, 128 + n % 64]
  else [240 + n / 262144, 128 + n / 4096 % 64, 128 + n / 64 % 64, 128 + n % 64]

def utf8EncodeChar (c : Char) : List Nat := utf8EncodeNat c.toNat

def utf8EncodeChars : List Char → List Nat
  | [] => []
  | c :: cs => utf8EncodeChar c ++ utf8EncodeChars cs

def utf8Encode (s : String) : List Nat := utf8EncodeChars s.data

def replChar : Char := Char.ofNat 65533

def isCont (b : Nat) : Bool := 128 ≤ b && b < 192

mutual

def utf8DecodePoints : List Nat → List Nat
  | [] => []
  | b0 :: rest =>
    if b0 < 128 then b0 :: utf8DecodePoints rest
    else if b0 < 192 then 65533 :: utf8DecodePoints rest
    else if b0 < 224 then utf8Cont1 b0 rest
    else if b0 < 240 then utf8Cont2 b0 rest
    else if b0 < 248 then utf8Cont3 b0 rest
    else 65533 :: utf8DecodePoints rest
  termination_by l => 2 * l.length + 1
  decreasing_by all_goals (simp only [List.length_cons]; omega)

def utf8Cont1 (b0 : Nat) : List Nat → List Nat
  | b1 :: rest1 =>
    if isCont b1 then ((b0 - 192) * 64 + (b1 - 128)) :: utf8DecodePoints rest1
    else 65533 :: utf8DecodePoints rest1
  | [] => [65533]
  termination_by l => 2 * l.length
  decreasing_by all_goals (simp only [List.length_cons]; omega)

def utf8Cont2 (b0 : Nat) : List Nat → List Nat
  | b1 :: b2 :: rest2 =>
    if isCont b1 && isCont b2 then
      ((b0 - 224) * 4096 + (b1 - 128) * 64 + (b2 - 128)) :: utf8DecodePoints rest2
    else 65533 :: utf8DecodePoints rest2
  | _ => [65533]
  termination_by l => 2 * l.length
  decreasing_by all_goals (simp only [List.length_cons]; omega)

def utf8Cont3 (b0 : Nat) : List Nat → List Nat
  | b1 :: b2 :: b3 :: rest3 =>
    if (isCont b1 && isCont b2) && isCont b3 then
      ((b0 - 240) * 262144 + (b1 - 128) * 4096 + (b2 - 128) * 64 + (b3 - 128)) ::
        utf8DecodePoints rest3
    else 65533 :: utf8DecodePoints rest3
  | _ => [65533]
  termination_by l => 2 * l.length
  decreasing_by all_goals (simp only [List.length_cons]; omega)

end

def utf8DecodeChars (bs : List Nat) : List Char := (utf8DecodePoints bs).map Char.ofNat

def utf8Decode (bs : List Nat) : String := String.mk (utf8DecodeChars bs)

theorem char_toNat_lt (c : Char) : c.toNat < 1114112 := by
  rcases c.valid with h | h
  · exact Nat.lt_trans h (by decide)
  · exact h.2

theorem utf8EncodeNat_one (n : Nat) (h : n < 128) : utf8EncodeNat n = [n] := by
  unfold utf8EncodeNat
  rw [if_pos h]

theorem utf8EncodeNat_two (n : Nat) (h1 : ¬ n < 128) (h2 : n < 2048) :
    utf8EncodeNat n = [192 + n / 64, 128 + n % 64] := by
  unfold utf8EncodeNat
  rw [if_neg h1, if_pos h2]

theorem utf8EncodeNat_three (n : Nat) (h1 : ¬ n < 128) (h2 : ¬ n < 2048) (h3 : n < 65536) :
    utf8EncodeNat n = [224 + n / 4096, 128 + n / 64 % 64, 128 + n % 64] := by
  unfold utf8EncodeNat
  rw [if_neg h1, if_neg h2, if_pos h3]

theorem utf8EncodeNat_four (n : Nat) (h1 : ¬ n < 128) (h2 : ¬ n < 2048) (h3 : ¬ n < 65536) :
    utf8EncodeNat n = [240 + n / 262144, 128 + n / 4096 % 64, 128 + n / 64 % 64, 128 + n % 64] := by
  unfold utf8EncodeNat
  rw [if_neg h1, if_neg h2, if_neg h3]

theorem utf8EncodeChars_lt : ∀ cs, ∀ b ∈ utf8EncodeChars cs, b < 256 := by
  intro cs
  induction cs with
  | nil => intro b hb; cases hb
  | cons c rest ih =>
    intro b hb
    simp only [utf8EncodeChars, List.mem_append] at hb
    rcases hb with hb | hb
    · have := char_toNat_lt c
      simp only [utf8EncodeChar, utf8EncodeNat] at hb
      split at hb <;> [skip; split at hb] <;> [skip; skip; split at hb] <;>
        simp only [List.mem_cons, List.not_mem_nil, or_false] at hb <;> omega
    · exact ih b hb

theorem utf8DecodePoints_one (n : Nat) (rest : List Nat) (h : n < 128) :
    utf8DecodePoints (n :: rest) = n :: utf8DecodePoints rest := by
  rw [utf8DecodePoints, if_pos h]

theorem utf8DecodePoints_two (b0 b1 : Nat) (rest : List Nat)
    (ha : ¬ b0 < 128) (hb : ¬ b0 < 192) (hc : b0 < 224) (h1 : isCont b1 = true) :
    utf8DecodePoints (b0 :: b1 :: rest) =
      ((b0 - 192) * 64 + (b1 - 128)) :: utf8DecodePoints rest := by
  rw [utf8DecodePoints, if_neg ha, if_neg hb, if_pos hc, utf8Cont1, if_pos h1]

theorem utf8DecodePoints_three (b0 b1 b2 : Nat) (rest : List Nat)
    (ha : ¬ b0 < 128) (hb : ¬ b0 < 192) (hc : ¬ b0 < 224) (hd : b0 < 240)
    (h1 : isCont b1 = true) (h2 : isCont b2 = true) :
    utf8DecodePoints (b0 :: b1 :: b2 :: rest) =
      ((b0 - 224) * 4096 + (b1 - 128) * 64 + (b2 - 128)) :: utf8DecodePoints rest := by
  rw [utf8DecodePoints, if_neg ha, if_neg hb, if_neg hc, if_pos hd, utf8Cont2, h1, h2]
  rw [if_pos (by decide)]

theorem utf8DecodePoints_four (b0 b1 b2 b3 : Nat) (rest : List Nat)
    (ha : ¬ b0 < 128) (hb : ¬ b0 < 192) (hc : ¬ b0 < 224) (hd : ¬ b0 < 240) (he : b0 < 248)
    (h1 : isCont b1 = true) (h2 : isCont b2 = true) (h3 : isCont b3 = true) :
    utf8DecodePoints (b0 :: b1 :: b2 :: b3 :: rest) =
      ((b0 - 240) * 262144 + (b1 - 128) * 4096 + (b2 - 128) * 64 + (b3 - 128)) ::
        utf8DecodePoints rest := by
  rw [utf8DecodePoints, if_neg ha, if_neg hb, if_neg hc, if_neg hd, if_pos he, utf8Cont3,
    h1, h2, h3]
  rw [if_pos (by decide)]

theorem utf8_points_roundtrip : ∀ cs, utf8DecodePoints (utf8EncodeChars cs) =
    cs.map Char.toNat := by
  intro cs
  induction cs with
  | nil =>
    show utf8DecodePoints [] = List.map Char.toNat []
    rw [utf8DecodePoints]
    rfl
  | cons c rest ih =>
    have hlt := char_toNat_lt c
    show utf8DecodePoints (utf8EncodeNat c.toNat ++ utf8EncodeChars rest) =
      c.toNat :: rest.map Char.toNat
    by_cases h1 : c.toNat < 128
    · rw [utf8EncodeNat_one _ h1, List.cons_append, List.nil_append,
        utf8DecodePoints_one _ _ h1, ih]
    · by_cases h2 : c.toNat < 2048
      · rw [utf8EncodeNat_two _ h1 h2]
        have gc : isCont (128 + c.toNat % 64) = true := by
          simp only [isCont, Bool.and_eq_true, decide_eq_true_eq]
          omega
        rw [List.cons_append, List.cons_append, List.nil_append,
          utf8DecodePoints_two _ _ _ (by omega) (by omega) (by omega) gc]
        have e : (192 + c.toNat / 64 - 192) * 64 + (128 + c.toNat % 64 - 128) = c.toNat := by
          omega
        rw [e, ih]
      · by_cases h3 : c.toNat < 65536
        · rw [utf8EncodeNat_three _ h1 h2 h3]
          have gc1 : isCont (128 + c.toNat / 64 % 64) = true := by
            simp only [isCont, Bool.and_eq_true, decide_eq_true_eq]
            omega
          have gc2 : isCont (128 + c.toNat % 64) = true := by
            simp only [isCont, Bool.and_eq_true, decide_eq_true_eq]
            omega
          rw [List.cons_append, List.cons_append, List.cons_append, List.nil_append,
            utf8DecodePoints_three _ _ _ _ (by omega) (by omega) (by omega) (by omega) gc1 gc2]
          have e : (224 + c.toNat / 4096 - 224) * 4096 + (128 + c.toNat / 64 % 64 - 128) * 64 +
              (128 + c.toNat % 64 - 128) = c.toNat := by
            omega
          rw [e, ih]
        · rw [utf8EncodeNat_four _ h1 h2 h3]
          have gc1 : isCont (128 + c.toNat / 4096 % 64) = true := by
            simp only [isCont, Bool.and_eq_true, decide_eq_true_eq]
            omega
          have gc2 : isCont (128 + c.toNat / 64 % 64) = true := by
            simp only [isCont, Bool.and_eq_true, decide_eq_true_eq]
            omega
          have gc3 : isCont (128 + c.toNat % 64) = true := by
            simp only [isCont, Bool.and_eq_true, decide_eq_true_eq]
            omega
          rw [List.cons_append, List.cons_append, List.cons_append, List.cons_append,
            List.nil_append, utf8DecodePoints_four _ _ _ _ _ (by omega) (by omega) (by omega)
            (by omega) (by omega) gc1 gc2 gc3]
          have e : (240 + c.toNat / 262144 - 240) * 262144 +
              (128 + c.toNat / 4096 % 64 - 128) * 4096 + (128 + c.toNat / 64 % 64 - 128) * 64 +
              (128 + c.toNat % 64 - 128) = c.toNat := by
            omega
          rw [e, ih]

theorem utf8_roundtrip_chars : ∀ cs, utf8DecodeChars (utf8EncodeChars cs) = cs := by
  intro cs
  unfold utf8DecodeChars
  rw [utf8_points_roundtrip, List.map_map]
  have : Char.ofNat ∘ Char.toNat = id := by
    funext c
    exact Char.ofNat_toNat c
  rw [this, List.map_id]

theorem utf8_roundtrip (s : String) : utf8Decode (utf8Encode s) = s := by
  unfold utf8Decode utf8Encode
  rw [utf8_roundtrip_chars]

theorem utf8Encode_lt (s : String) : ∀ b ∈ utf8Encode s, b < 256 :=
  utf8EncodeChars_lt s.data

/-! ### AES-GCM packing layer (`encryptWithAES` / `decryptWithAES`)

The source generates a fresh 96-bit IV, calls `crypto.subtle.encrypt`
(AES-GCM), and packs `base64(iv) + ":" + base64(ciphertext)`.
`decryptWithAES` splits on `:`, throws `Invalid encrypted data format`
unless there are exactly two parts, base64-decodes both, and calls
`crypto.subtle.decrypt`.  The AEAD itself is a parameter: `aesEnc` maps
key, IV and plaintext bytes to ciphertext bytes, `aesDec` returns `none`
where `subtle.decrypt` would reject (authentication failure).  The fresh
random IV is passed explicitly. -/

inductive DecryptError where
  | formatError
  | badBase64
  | authError
  deriving DecidableEq, Repr

def encryptWithAES {κ : Type} (aesEnc : κ → List Nat → List Nat → List Nat)
    (key : κ) (iv : List Nat) (data : String) : List Char :=
  u8ToB64 iv ++ colonChar :: u8ToB64 (aesEnc key iv (utf8Encode data))

def decryptWithAES {κ : Type} (aesDec : κ → List Nat → List Nat → Option (List Nat))
    (key : κ) (packed : List Char) : Except DecryptError String :=
  match splitOnColon packed with
  | [p0, p1] =>
    match b64ToU8 p0, b64ToU8 p1 with
    | some iv, some ct =>
      match aesDec key iv ct with
      | some pt => Except.ok (utf8Decode pt)
      | none => Except.error DecryptError.authError
    | _, _ => Except.error DecryptError.badBase64
  | _ => Except.error DecryptError.formatError

theorem encryptWithAES_split {κ : Type} (aesEnc : κ → List Nat → List Nat → List Nat)
    (key : κ) (iv : List Nat) (data : String) :
    splitOnColon (encryptWithAES aesEnc key iv data) =
      [u8ToB64 iv, u8ToB64 (aesEnc key iv (utf8Encode data))] := by
  unfold encryptWithAES
  exact splitOnColon_two _ _ (u8ToB64_no_colon iv) (u8ToB64_no_colon _)

/-! ### SHA-256 (`crypto.subtle.digest('SHA-256', ...)`)

`getSaltForUser` hashes the UTF-8 bytes of the email with SHA-256 and
keeps the first 16 bytes.  SHA-256 is implemented concretely (FIPS 180-4)
over `Nat` words reduced mod 2^32 so that concrete salts can be computed
inside proofs. -/

def rotr32 (n x : Nat) : Nat := ((x >>> n) ||| (x <<< (32 - n))) % 4294967296

def shaK : List Nat :=
  [1116352408, 1899447441, 3049323471, 3921009573, 961987163,
   1508970993, 2453635748, 2870763221, 3624381080, 310598401,
   607225278, 1426881987, 1925078388, 2162078206, 2614888103,
   3248222580, 3835390401, 4022224774, 264347078, 604807628,
   770255983, 1249150122, 1555081692, 1996064986, 2554220882,
   2821834349, 2952996808, 3210313671, 3336571891, 3584528711,
   113926993, 338241895, 666307205, 773529912, 1294757372,
   1396182291, 1695183700, 1986661051, 2177026350, 2456956037,
   2730485921, 2820302411, 3259730800, 3345764771, 3516065817,
   3600352804, 4094571909, 275423344, 430227734, 506948616,
   659060556, 883997877, 958139571, 1322822218, 1537002063,
   1747873779, 1955562222, 2024104815, 2227730452, 2361852424,
   2428436474, 2756734187, 3204031479, 3329325298]

structure Hash8 where
  a : Nat
  b : Nat
  c : Nat
  d : Nat
  e : Nat
  f : Nat
  g : Nat
  hh : Nat
  deriving DecidableEq, Repr

def shaH0 : Hash8 :=
  ⟨1779033703, 3144134277, 1013904242, 2773480762,
   1359893119, 2600822924, 528734635, 1541459225⟩

def smallSigma0 (x : Nat) : Nat := (rotr32 7 x) ^^^ (rotr32 18 x) ^^^ (x >>> 3)

def smallSigma1 (x : Nat) : Nat := (rotr32 17 x) ^^^ (rotr32 19 x) ^^^ (x >>> 10)

def bigSigma0 (x : Nat) : Nat := (rotr32 2 x) ^^^ (rotr32 13 x) ^^^ (rotr32 22 x)

def bigSigma1 (x : Nat) : Nat := (rotr32 6 x) ^^^ (rotr32 11 x) ^^^ (rotr32 25 x)

def chFn (e f g : Nat) : Nat := (e &&& f) ^^^ ((e ^^^ 4294967295) &&& g)

def majFn (a b c : Nat) : Nat := (a &&& b) ^^^ (a &&& c) ^^^ (b &&& c)

def extendLoop : Nat → List Nat → List Nat
  | 0, acc => acc
  | k + 1, acc =>
    extendLoop k (((acc.getD 15 0 + smallSigma0 (acc.getD 14 0) + acc.getD 6 0 +
      smallSigma1 (acc.getD 1 0)) % 4294967296) :: acc)

def schedule (ws : List Nat) : List Nat := (extendLoop 48 ws.reverse).reverse

def shaRound (st : Hash8) (kw : Nat × Nat) : Hash8 :=
  let t1 := (st.hh + bigSigma1 st.e + chFn st.e st.f st.g + kw.1 + kw.2) % 4294967296
  let t2 := (bigSigma0 st.a + majFn st.a st.b st.c) % 4294967296
  ⟨(t1 + t2) % 4294967296, st.a, st.b, st.c, (st.d + t1) % 4294967296, st.e, st.f, st.g⟩

def addHash (x y : Hash8) : Hash8 :=
  ⟨(x.a + y.a) % 4294967296, (x.b + y.b) % 4294967296, (x.c + y.c) % 4294967296,
   (x.d + y.d) % 4294967296, (x.e + y.e) % 4294967296, (x.f + y.f) % 4294967296,
   (x.g + y.g) % 4294967296, (x.hh + y.hh) % 4294967296⟩

def compressBlock (h : Hash8) (block : List Nat) : Hash8 :=
  addHash h ((shaK.zip (schedule block)).foldl shaRound h)

def bytesToWords : List Nat → List Nat
  | b0 :: b1 :: b2 :: b3 :: rest =>
    (b0 * 16777216 + b1 * 65536 + b2 * 256 + b3) :: bytesToWords rest
  | _ => []

def processBlocks : Hash8 → List Nat → Hash8
  | h, w0 :: w1 :: w2 :: w3 :: w4 :: w5 :: w6 :: w7 :: w8 :: w9 :: w10 :: w11 :: w12 :: w13 ::
      w14 :: w15 :: rest =>
    processBlocks (compressBlock h [w0, w1, w2, w3, w4, w5, w6, w7, w8, w9, w10, w11, w12, w13,
      w14, w15]) rest
  | h, _ => h

def shaPad (msg : List Nat) : List Nat :=
  msg ++ 128 :: List.replicate ((119 - msg.length % 64) % 64) 0 ++
    [msg.length * 8 / 72057594037927936 % 256, msg.length * 8 / 281474976710656 % 256,
     msg.length * 8 / 1099511627776 % 256, msg.length * 8 / 4294967296 % 256,
     msg.length * 8 / 16777216 % 256, msg.length * 8 / 65536 % 256,
     msg.length * 8 / 256 % 256, msg.length * 8 % 256]

def wordBytes (w : Nat) : List Nat :=
  [w / 16777216 % 256, w / 65536 % 256, w / 256 % 256, w % 256]

def hashBytes (h : Hash8) : List Nat :=
  wordBytes h.a ++ wordBytes h.b ++ wordBytes h.c ++ wordBytes h.d ++ wordBytes h.e ++
    wordBytes h.f ++ wordBytes h.g ++ wordBytes h.hh

def sha256 (msg : List Nat) : List Nat :=
  hashBytes (processBlocks shaH0 (bytesToWords (shaPad msg)))

/-- Sanity anchor: the FIPS 180-4 test vector for `"abc"`. -/
theorem sha256_abc : sha256 [97, 98, 99] = [186, 120, 22, 191, 143, 1, 207, 234, 65, 65, 64, 222, 93, 174, 34, 35,
    176, 3, 97, 163, 150, 23, 122, 156, 180, 16, 255, 97, 242, 0, 21, 173] := by
  decide

/-- `getSaltForUser` from `src/lib/crypto`: SHA-256 of the UTF-8 bytes of
the email exactly as given (the source passes `email`, not a lower-cased
form, to the digest), truncated to the first 16 bytes. -/
def getSaltForUser (email : String) : List Nat := (sha256 (utf8Encode email)).take 16

theorem wordBytes_lt (w : Nat) : ∀ b ∈ wordBytes w, b < 256 := by
  intro b hb
  simp only [wordBytes, List.mem_cons, List.not_mem_nil, or_false] at hb
  rcases hb with h | h | h | h <;> subst h <;> exact Nat.mod_lt _ (by omega)

theorem hashBytes_length (h : Hash8) : (hashBytes h).length = 32 := by
  simp [hashBytes, wordBytes]

theorem hashBytes_lt (h : Hash8) : ∀ b ∈ hashBytes h, b < 256 := by
  intro b hb
  simp only [hashBytes, List.mem_append] at hb
  rcases hb with ((((((hb | hb) | hb) | hb) | hb) | hb) | hb) | hb <;> exact wordBytes_lt _ b hb

theorem sha256_length (msg : List Nat) : (sha256 msg).length = 32 :=
  hashBytes_length _

theorem sha256_lt (msg : List Nat) : ∀ b ∈ sha256 msg, b < 256 :=
  hashBytes_lt _

/-- `email.toLowerCase()` as used by the login duress lookup, modelled
character-wise (ASCII case folding, which agrees with JS for the ASCII
emails the system handles). -/
def jsToLower (s : String) : String := String.mk (s.data.map Char.toLower)

/-! ### Session state (`AuthProvider` in `src/components/core/ProtectedRoute.tsx`)

The provider's React state is the four `useState` hooks `currentUser`,
`userProfile`, `inMemVault`, `isDecoyMode`.  Each operation is a function
from the current state (plus an environment fixing the outcomes of the
external Firebase/Firestore calls and of the keyed crypto primitives) to
the new state, a result, and the ordered list of external/crypto effects
the operation performed.  `Except.error msg` models a thrown
`new Error(msg)`. -/

structure UserProfile where
  uid : String
  username : String
  email : String
  kyberPublicKey : String
  duressHash : Option String
  deriving DecidableEq, Repr

structure FireUser where
  uid : String
  email : String
  emailVerified : Bool
  deriving DecidableEq, Repr

/-- The opaque `CryptoKey` produced by `deriveMasterKey`, identified by its
derivation inputs (password and per-identity salt). -/
structure MasterKey where
  password : String
  salt : List Nat
  deriving DecidableEq, Repr

structure InMemVault where
  masterKey : MasterKey
  kyberPrivateKey : String
  sharedSecrets : List (String × String)
  deriving DecidableEq, Repr

structure KeyVault where
  encryptedPrivateKey : String
  encryptedSharedSecrets : String
  deriving DecidableEq, Repr

structure AuthState where
  currentUser : Option FireUser
  userProfile : Option UserProfile
  inMemVault : Option InMemVault
  isDecoyMode : Bool
  deriving DecidableEq, Repr

def emptyState : AuthState := ⟨none, none, none, false⟩

inductive Effect where
  | queryUsersByEmail (email : String)
  | hashPassword (pw : String)
  | firebaseSignIn (email pw : String)
  | getSalt (email : String)
  | deriveMasterKey (pw : String)
  | getProfileDoc (uid : String)
  | getVaultDoc (uid : String)
  | decryptVaultField (field : String)
  | firebaseSignOut
  | reauthenticate (email pw : String)
  | encryptVaultField (field : String) (plaintext : String)
  | updateVaultDoc (fields : List String)
  | updateCredentialPassword
  | kemDecap
  | kemEncap
  | importKey
  deriving DecidableEq, Repr

/-- JS object update `{ ...m, [k]: v }`: overwrite in place or append. -/
def objSet : List (String × String) → String → String → List (String × String)
  | [], k, v => [(k, v)]
  | (k', v') :: rest, k, v =>
    if k' = k then (k, v) :: rest else (k', v') :: objSet rest k v

/-- JS object read `m[k]` (with `undefined` as `none`). -/
def lookupSecret : List (String × String) → String → Option String
  | [], _ => none
  | (k', v') :: rest, k => if k' = k then some v' else lookupSecret rest k

/-- `JSON.stringify` of the shared-secrets object (chat ids and base64
secrets need no JSON string escaping). -/
def serializeSecrets (m : List (String × String)) : String :=
  "\x7b" ++ String.intercalate ","
    (m.map (fun kv => "\"" ++ kv.1 ++ "\":\"" ++ kv.2 ++ "\"")) ++ "\x7d"

/-- Outcomes of the external calls a `login` run can perform.
`findByEmail` is the Firestore query for the profile (`.error` models a
thrown query, which the duress step catches); `hashPw` is
`Crypto.hashPasswordForStorage` (its implementation is not part of the
core source; only its deterministic string result matters here);
`decryptPrivateKey` / `decryptSecrets` / `parseSecrets` are the outcomes
of the two `decryptWithAES` calls and of `JSON.parse`. -/
structure LoginEnv where
  findByEmail : Except Unit (Option UserProfile)
  hashPw : String → String
  signIn : Except String FireUser
  profileDoc : Option UserProfile
  vaultDoc : Option KeyVault
  decryptPrivateKey : Except Unit String
  decryptSecrets : Except Unit String
  parseSecrets : Except Unit (List (String × String))

/-- The duress branch condition of `login`: the profile query succeeded,
the profile carries a `duressHash`, and the hash of the entered password
equals it. -/
def duressHit (env : LoginEnv) (password : String) : Bool :=
  match env.findByEmail with
  | .ok (some p) =>
    match p.duressHash with
    | some dh => env.hashPw password == dh
    | none => false
  | _ => false

/-- The synthetic `User` injected by the duress branch:
`{ uid, email, emailVerified: true }`. -/
def decoyUser (p : UserProfile) : FireUser := ⟨p.uid, p.email, true⟩

def decoyState (p : UserProfile) : AuthState := ⟨some (decoyUser p), some p, none, true⟩

/-- `logout`.  In decoy mode: pure in-memory reset of the four state
hooks, no external call.  Otherwise `signOut(auth)`; the
`onAuthStateChanged(null)` listener then clears the four hooks, which is
folded into the effect here. -/
def logout (st : AuthState) : AuthState × List Effect :=
  if st.isDecoyMode then (emptyState, [])
  else (emptyState, [Effect.firebaseSignOut])

/-- Step 2 of `login` (the real Firebase sign-in and vault unlock):
`signInWithEmailAndPassword`, salt and master-key derivation,
profile/vault reads, decryption of both vault fields and `JSON.parse`; a
decrypt/parse failure forces `logout()` and surfaces `Invalid password.`.
`tr` holds the effects already performed by the duress gate. -/
def loginReal (env : LoginEnv) (st : AuthState) (email password : String) (tr : List Effect) :
    AuthState × Except String Unit × List Effect :=
  let tr1 := tr ++ [Effect.firebaseSignIn email password]
  match env.signIn with
  | .error e => (st, Except.error e, tr1)
  | .ok user =>
    let tr2 := tr1 ++ [Effect.getSalt user.email, Effect.deriveMasterKey password,
      Effect.getProfileDoc user.uid, Effect.getVaultDoc user.uid]
    match env.vaultDoc with
    | none => (st, Except.error "Key vault not found.", tr2)
    | some _vault =>
      let tr3 := tr2 ++ [Effect.decryptVaultField "encryptedPrivateKey"]
      match env.decryptPrivateKey with
      | .error _ => ((logout st).1, Except.error "Invalid password.", tr3 ++ (logout st).2)
      | .ok pKey =>
        let tr4 := tr3 ++ [Effect.decryptVaultField "encryptedSharedSecrets"]
        match env.decryptSecrets with
        | .error _ => ((logout st).1, Except.error "Invalid password.", tr4 ++ (logout st).2)
        | .ok _secretsJson =>
          match env.parseSecrets with
          | .error _ => ((logout st).1, Except.error "Invalid password.", tr4 ++ (logout st).2)
          | .ok secrets =>
            (⟨some user, env.profileDoc,
              some ⟨⟨password, getSaltForUser user.email⟩, pKey, secrets⟩, false⟩,
             Except.ok (), tr4)

/-- `login`.  Step 1 (the duress gate): query the profile by the
lower-cased email (a thrown query is caught and falls through); on a
duress match inject the fake user/profile, null vault and the decoy flag
and return, otherwise proceed with the real login. -/
def login (env : LoginEnv) (st : AuthState) (email password : String) :
    AuthState × Except String Unit × List Effect :=
  let t0 : List Effect := [Effect.queryUsersByEmail (jsToLower email)]
  match env.findByEmail with
  | .error _ => loginReal env st email password t0
  | .ok none => loginReal env st email password t0
  | .ok (some p) =>
    match p.duressHash with
    | none => loginReal env st email password t0
    | some dh =>
      if env.hashPw password == dh then
        (decoyState p, Except.ok (), t0 ++ [Effect.hashPassword password])
      else loginReal env st email password (t0 ++ [Effect.hashPassword password])

/-- Outcomes of the external calls of `decapAndSaveKey` /
`encapAndSaveKey`: the KEM operation, the `encryptWithAES` of the
re-serialized secrets map, and the Firestore `updateDoc` write. -/
structure OpEnv where
  decapResult : Except String String
  encapResult : Except String (String × String)
  encSecResult : Except String String
  updateVault : Except String Unit

/-- `decapAndSaveKey(chatId, ciphertext)`: guarded by the vault/user
check, then the decoy check; decapsulates, inserts the secret into a
fresh copy of the map, re-encrypts the whole map, persists ONLY the
`encryptedSharedSecrets` field via `updateDoc`, and only then updates the
in-memory vault. -/
def decapAndSaveKey (env : OpEnv) (st : AuthState) (chatId _ciphertext : String) :
    AuthState × Except String Unit × List Effect :=
  match st.inMemVault, st.currentUser with
  | some v, some _u =>
    if st.isDecoyMode then (st, Except.error "Cannot use crypto in decoy mode.", [])
    else
      match env.decapResult with
      | .error e => (st, Except.error e, [Effect.kemDecap])
      | .ok ss =>
        match env.encSecResult with
        | .error e => (st, Except.error e, [Effect.kemDecap,
            Effect.encryptVaultField "encryptedSharedSecrets"
              (serializeSecrets (objSet v.sharedSecrets chatId ss))])
        | .ok _ct =>
          match env.updateVault with
          | .error e => (st, Except.error e, [Effect.kemDecap,
              Effect.encryptVaultField "encryptedSharedSecrets"
                (serializeSecrets (objSet v.sharedSecrets chatId ss)),
              Effect.updateVaultDoc ["encryptedSharedSecrets"]])
          | .ok _ =>
            ({st with inMemVault := some {v with sharedSecrets := objSet v.sharedSecrets chatId ss}},
             Except.ok (), [Effect.kemDecap,
              Effect.encryptVaultField "encryptedSharedSecrets"
                (serializeSecrets (objSet v.sharedSecrets chatId ss)),
              Effect.updateVaultDoc ["encryptedSharedSecrets"]])
  | _, _ => (st, Except.error "Vault locked.", [])

/-- `encapAndSaveKey(chatId, recipientPublicKey)`: same shape as
`decapAndSaveKey` on the initiator side; returns the KEM ciphertext. -/
def encapAndSaveKey (env : OpEnv) (st : AuthState) (chatId _recipientPk : String) :
    AuthState × Except String String × List Effect :=
  match st.inMemVault, st.currentUser with
  | some v, some _u =>
    if st.isDecoyMode then (st, Except.error "Cannot use crypto in decoy mode.", [])
    else
      match env.encapResult with
      | .error e => (st, Except.error e, [Effect.kemEncap])
      | .ok sc =>
        match env.encSecResult with
        | .error e => (st, Except.error e, [Effect.kemEncap,
            Effect.encryptVaultField "encryptedSharedSecrets"
              (serializeSecrets (objSet v.sharedSecrets chatId sc.1))])
        | .ok _ct =>
          match env.updateVault with
          | .error e => (st, Except.error e, [Effect.kemEncap,
              Effect.encryptVaultField "encryptedSharedSecrets"
                (serializeSecrets (objSet v.sharedSecrets chatId sc.1)),
              Effect.updateVaultDoc ["encryptedSharedSecrets"]])
          | .ok _ =>
            ({st with inMemVault := some {v with sharedSecrets := objSet v.sharedSecrets chatId sc.1}},
             Except.ok sc.2, [Effect.kemEncap,
              Effect.encryptVaultField "encryptedSharedSecrets"
                (serializeSecrets (objSet v.sharedSecrets chatId sc.1)),
              Effect.updateVaultDoc ["encryptedSharedSecrets"]])
  | _, _ => (st, Except.error "Vault locked.", [])

/-- `getChatKey(chatId)`: returns `null` in decoy mode, with a locked
vault, and for a missing (or empty, via JS falsiness) secret; otherwise
imports the stored secret (represented by its base64 string). -/
def getChatKey (st : AuthState) (chatId : String) : Option String × List Effect :=
  if st.isDecoyMode then (none, [])
  else
    match st.inMemVault with
    | none => (none, [])
    | some v =>
      match lookupSecret v.sharedSecrets chatId with
      | none => (none, [])
      | some s => if s = "" then (none, []) else (some s, [Effect.importKey])

/-- Outcomes of the external calls of `changePassword`:
`reauthenticateWithCredential` (outside the try, so its error
propagates), the two `encryptWithAES` calls, the `updateDoc` of both
vault fields, and `updatePassword` (all inside the try, whose catch
rethrows the rotation error). -/
structure CPEnv where
  reauth : Except String Unit
  encPriv : Except String String
  encSec : Except String String
  updateVault : Except String Unit
  updatePw : Except String Unit

def rotationError : String := "Vault re-encryption failed. Password not changed."

/-- `changePassword(currentPassword, newPassword)`. -/
def changePassword (env : CPEnv) (st : AuthState) (currentPw newPw : String) :
    AuthState × Except String Unit × List Effect :=
  match st.currentUser, st.inMemVault with
  | some u, some v =>
    if u.email = "" then (st, Except.error "User not fully authenticated.", [])
    else if st.isDecoyMode then (st, Except.error "Cannot change password in decoy mode.", [])
    else
      match env.reauth with
      | .error e => (st, Except.error e, [Effect.reauthenticate u.email currentPw])
      | .ok _ =>
        let tr1 := [Effect.reauthenticate u.email currentPw, Effect.getSalt u.email,
          Effect.deriveMasterKey newPw,
          Effect.encryptVaultField "encryptedPrivateKey" v.kyberPrivateKey]
        match env.encPriv with
        | .error _ => (st, Except.error rotationError, tr1)
        | .ok _ =>
          let tr2 := tr1 ++
            [Effect.encryptVaultField "encryptedSharedSecrets" (serializeSecrets v.sharedSecrets)]
          match env.encSec with
          | .error _ => (st, Except.error rotationError, tr2)
          | .ok _ =>
            let tr3 := tr2 ++
              [Effect.updateVaultDoc ["encryptedPrivateKey", "encryptedSharedSecrets"]]
            match env.updateVault with
            | .error _ => (st, Except.error rotationError, tr3)
            | .ok _ =>
              let tr4 := tr3 ++ [Effect.updateCredentialPassword]
              match env.updatePw with
              | .error _ => (st, Except.error rotationError, tr4)
              | .ok _ =>
                let v' := {v with masterKey := ⟨newPw, getSaltForUser u.email⟩}
                ({st with inMemVault := some v'}, Except.ok (), tr4)
  | _, _ => (st, Except.error "User not fully authenticated.", [])

/-- One vault-dependent operation together with the outcomes of the
external calls it would make. -/
inductive VaultOp where
  | getKey (chatId : String)
  | decap (env : OpEnv) (chatId ciphertext : String)
  | encap (env : OpEnv) (chatId recipientPk : String)
  | changePw (env : CPEnv) (currentPw newPw : String)

def stepOp (st : AuthState) : VaultOp → AuthState × List Effect
  | .getKey chatId => (st, (getChatKey st chatId).2)
  | .decap env c ct => ((decapAndSaveKey env st c ct).1, (decapAndSaveKey env st c ct).2.2)
  | .encap env c pk => ((encapAndSaveKey env st c pk).1, (encapAndSaveKey env st c pk).2.2)
  | .changePw env a b => ((changePassword env st a b).1, (changePassword env st a b).2.2)

def runOps : AuthState → List VaultOp → AuthState × List Effect
  | st, [] => (st, [])
  | st, op :: ops =>
    ((runOps (stepOp st op).1 ops).1, (stepOp st op).2 ++ (runOps (stepOp st op).1 ops).2)

def isErr {ε α : Type} : Except ε α → Bool
  | .error _ => true
  | .ok _ => false

/-- Effects that derive, load, decrypt, re-encrypt or persist real vault
key material (the master key, the KEM private key, or shared secrets). -/
def touchesVault : Effect → Bool
  | .deriveMasterKey _ => true
  | .decryptVaultField _ => true
  | .getVaultDoc _ => true
  | .encryptVaultField _ _ => true
  | .updateVaultDoc _ => true
  | .kemDecap => true
  | .kemEncap => true
  | .importKey => true
  | _ => false

theorem decoy_stepOp (st : AuthState) (h1 : st.isDecoyMode = true)
    (h2 : st.inMemVault = none) (op : VaultOp) : stepOp st op = (st, []) := by
  cases op with
  | getKey c => simp [stepOp, getChatKey, h1]
  | decap env c ct => simp [stepOp, decapAndSaveKey, h2]
  | encap env c pk => simp [stepOp, encapAndSaveKey, h2]
  | changePw env a b => simp [stepOp, changePassword, h2]

theorem decoy_runOps (st : AuthState) (h1 : st.isDecoyMode = true)
    (h2 : st.inMemVault = none) : ∀ ops, runOps st ops = (st, []) := by
  intro ops
  induction ops with
  | nil => rfl
  | cons op ops ih =>
    simp [runOps, decoy_stepOp st h1 h2 op, ih]

/-! ### Claim theorems -/

/-- C1: on a duress match (`duressHash` present and the entered
password's hash equal to it), `login` enters decoy mode performing only
the profile query and the hash — never vault unlock, master-key
derivation, vault decryption or any KEM call — with the in-memory vault
null, and every subsequent vault-dependent operation
(`getChatKey`/`decapAndSaveKey`/`encapAndSaveKey`/`changePassword`) while
decoy mode is active leaves the state unchanged and performs no effect at
all, so no vault-touching effect ever occurs. -/
theorem duress_login_decoy_isolation (env : LoginEnv) (st : AuthState) (email password : String)
    (p : UserProfile) (dh : String)
    (hfind : env.findByEmail = .ok (some p))
    (hdh : p.duressHash = some dh)
    (hhash : env.hashPw password = dh) :
    login env st email password = (decoyState p, Except.ok (),
      [Effect.queryUsersByEmail (jsToLower email), Effect.hashPassword password]) ∧
    (decoyState p).inMemVault = none ∧
    (decoyState p).isDecoyMode = true ∧
    (∀ e ∈ (login env st email password).2.2, touchesVault e = false) ∧
    (∀ st' : AuthState, st'.isDecoyMode = true → st'.inMemVault = none →
      ∀ ops : List VaultOp, runOps st' ops = (st', [])) := by
  have hrun : login env st email password = (decoyState p, Except.ok (),
      [Effect.queryUsersByEmail (jsToLower email), Effect.hashPassword password]) := by
    unfold login
    simp only [hfind, hdh, hhash, beq_self_eq_true, if_true, List.cons_append, List.nil_append]
  refine ⟨hrun, rfl, rfl, ?_, ?_⟩
  · rw [hrun]
    intro e he
    simp only [List.mem_cons, List.not_mem_nil, or_false] at he
    rcases he with h | h <;> subst h <;> rfl
  · intro st' h1 h2 ops
    exact decoy_runOps st' h1 h2 ops

def c1Profile : UserProfile :=
  ⟨"uid-1", "alice", "a@x.com", "PK", some "H"⟩

def c1Env : LoginEnv :=
  ⟨Except.ok (some c1Profile), fun _ => "H", Except.error "unused", none, none,
   Except.error (), Except.error (), Except.error ()⟩

theorem duress_login_decoy_isolation_witness :
    login c1Env emptyState "A@x.com" "duresspw" = (decoyState c1Profile, Except.ok (),
      [Effect.queryUsersByEmail (jsToLower "A@x.com"), Effect.hashPassword "duresspw"]) ∧
    (decoyState c1Profile).inMemVault = none ∧
    (decoyState c1Profile).isDecoyMode = true ∧
    (∀ e ∈ (login c1Env emptyState "A@x.com" "duresspw").2.2, touchesVault e = false) ∧
    (∀ st' : AuthState, st'.isDecoyMode = true → st'.inMemVault = none →
      ∀ ops : List VaultOp, runOps st' ops = (st', [])) :=
  duress_login_decoy_isolation c1Env emptyState "A@x.com" "duresspw" c1Profile "H" rfl rfl rfl

/-- C9: `logout` from decoy mode is a pure in-memory reset — all four
state hooks cleared, no external effect, in particular no Firebase
`signOut` — while `logout` from a real session performs exactly the
external `signOut` (whose auth listener clears the state). -/
theorem logout_decoy_vs_real (st : AuthState) :
    ((logout st).1 = emptyState) ∧
    (st.isDecoyMode = true → logout st = (emptyState, [])) ∧
    (st.isDecoyMode = false → logout st = (emptyState, [Effect.firebaseSignOut])) := by
  cases hd : st.isDecoyMode <;> simp [logout, hd]

theorem logout_decoy_vs_real_witness :
    logout ⟨some ⟨"u", "e@x.com", true⟩, some c1Profile, none, true⟩ = (emptyState, []) ∧
    logout ⟨some ⟨"u", "e@x.com", true⟩, none, none, false⟩ =
      (emptyState, [Effect.firebaseSignOut]) :=
  ⟨(logout_decoy_vs_real ⟨some ⟨"u", "e@x.com", true⟩, some c1Profile, none, true⟩).2.1 rfl,
   (logout_decoy_vs_real ⟨some ⟨"u", "e@x.com", true⟩, none, none, false⟩).2.2 rfl⟩

theorem decap_unchanged_of_update_err (env : OpEnv) (st : AuthState) (chatId ct e : String)
    (hw : env.updateVault = Except.error e) : (decapAndSaveKey env st chatId ct).1 = st := by
  rcases hv : st.inMemVault with _ | v
  · simp [decapAndSaveKey, hv]
  · rcases hu : st.currentUser with _ | u
    · simp [decapAndSaveKey, hv, hu]
    · cases hd : st.isDecoyMode
      · rcases hdec : env.decapResult with e1 | ss
        · simp [decapAndSaveKey, hv, hu, hd, hdec]
        · rcases hes : env.encSecResult with e2 | c1
          · simp [decapAndSaveKey, hv, hu, hd, hdec, hes]
          · simp [decapAndSaveKey, hv, hu, hd, hdec, hes, hw]
      · simp [decapAndSaveKey, hv, hu, hd]

theorem encap_unchanged_of_update_err (env : OpEnv) (st : AuthState) (chatId pk e : String)
    (hw : env.updateVault = Except.error e) : (encapAndSaveKey env st chatId pk).1 = st := by
  rcases hv : st.inMemVault with _ | v
  · simp [encapAndSaveKey, hv]
  · rcases hu : st.currentUser with _ | u
    · simp [encapAndSaveKey, hv, hu]
    · cases hd : st.isDecoyMode
      · rcases henc : env.encapResult with e1 | sc
        · simp [encapAndSaveKey, hv, hu, hd, henc]
        · rcases hes : env.encSecResult with e2 | c1
          · simp [encapAndSaveKey, hv, hu, hd, henc, hes]
          · simp [encapAndSaveKey, hv, hu, hd, henc, hes, hw]
      · simp [encapAndSaveKey, hv, hu, hd]

/-- C10: `decapAndSaveKey` / `encapAndSaveKey` call `setInMemVault` only
after the awaited `updateDoc` write: if the write fails (or anything
before it does), the in-memory state is unchanged; the in-memory map can
change only when the write succeeded, and on success it becomes the
updated map. -/
theorem inmem_update_after_persist (env : OpEnv) (st : AuthState) (chatId ct pk : String) :
    (isErr env.updateVault = true →
      (decapAndSaveKey env st chatId ct).1 = st ∧ (encapAndSaveKey env st chatId pk).1 = st) ∧
    ((decapAndSaveKey env st chatId ct).1 ≠ st → env.updateVault = Except.ok ()) ∧
    ((encapAndSaveKey env st chatId pk).1 ≠ st → env.updateVault = Except.ok ()) ∧
    (∀ v u ss c1, st.inMemVault = some v → st.currentUser = some u → st.isDecoyMode = false →
      env.decapResult = Except.ok ss → env.encSecResult = Except.ok c1 →
      env.updateVault = Except.ok () →
      (decapAndSaveKey env st chatId ct).1 =
        {st with inMemVault := some {v with sharedSecrets := objSet v.sharedSecrets chatId ss}}) := by
  refine ⟨?_, ?_, ?_, ?_⟩
  · intro hw
    rcases hw2 : env.updateVault with e | u
    · exact ⟨decap_unchanged_of_update_err env st chatId ct e hw2,
        encap_unchanged_of_update_err env st chatId pk e hw2⟩
    · rw [hw2] at hw
      cases hw
  · intro hne
    rcases hw2 : env.updateVault with e | u
    · exact absurd (decap_unchanged_of_update_err env st chatId ct e hw2) hne
    · rfl
  · intro hne
    rcases hw2 : env.updateVault with e | u
    · exact absurd (encap_unchanged_of_update_err env st chatId pk e hw2) hne
    · rfl
  · intro v u ss c1 hv hu hd hdec hes hw
    simp only [decapAndSaveKey, hv, hu, hd, Bool.false_eq_true, if_false, hdec, hes, hw]

def c10St : AuthState :=
  ⟨some ⟨"u10", "j@x.com", true⟩, none, some ⟨⟨"pw", [3]⟩, "PRIV10", [("old", "S0")]⟩, false⟩

def c10EnvFail : OpEnv :=
  ⟨Except.ok "SS", Except.ok ("SS", "CT"), Except.ok "ENC", Except.error "write failed"⟩

def c10EnvOk : OpEnv :=
  ⟨Except.ok "SS", Except.ok ("SS", "CT"), Except.ok "ENC", Except.ok ()⟩

def c10StNew : AuthState :=
  ⟨some ⟨"u10", "j@x.com", true⟩, none,
   some ⟨⟨"pw", [3]⟩, "PRIV10", objSet [("old", "S0")] "chat" "SS"⟩, false⟩

theorem inmem_update_after_persist_witness :
    ((decapAndSaveKey c10EnvFail c10St "chat" "ct").1 = c10St ∧
      (encapAndSaveKey c10EnvFail c10St "chat" "pk").1 = c10St) ∧
    (decapAndSaveKey c10EnvOk c10St "chat" "ct").1 = c10StNew :=
  ⟨(inmem_update_after_persist c10EnvFail c10St "chat" "ct" "pk").1 rfl,
   (inmem_update_after_persist c10EnvOk c10St "chat" "ct" "pk").2.2.2 ⟨⟨"pw", [3]⟩, "PRIV10",
     [("old", "S0")]⟩ ⟨"u10", "j@x.com", true⟩ "SS" "ENC" rfl rfl rfl rfl rfl rfl⟩

def c3Profile : UserProfile := ⟨"u3", "bob", "b@x.com", "PK3", some "H3"⟩

def c3DecoySt : AuthState := decoyState c3Profile

def c3OpEnv : OpEnv := ⟨Except.ok "SS", Except.ok ("SS", "CT"), Except.ok "ENC", Except.ok ()⟩

/-- C3 counterexample: in the decoy state reached by a duress login
(decoy flag set, vault null), `getChatKey` returns `null` — a non-error
result — rather than failing with an error, and `decapAndSaveKey` throws
the vault-locked error `Vault locked.` (the `!inMemVault` guard runs
first and the vault is always null in decoy mode), not the dedicated
decoy error `Cannot use crypto in decoy mode.`. -/
theorem locked_ops_cex :
    (getChatKey c3DecoySt "chat").1 = none ∧
    (decapAndSaveKey c3OpEnv c3DecoySt "chat" "ct").2.1 = Except.error "Vault locked." ∧
    (decapAndSaveKey c3OpEnv c3DecoySt "chat" "ct").2.1 ≠
      Except.error "Cannot use crypto in decoy mode." := by
  refine ⟨rfl, rfl, ?_⟩
  intro h
  simp [decapAndSaveKey, c3DecoySt, decoyState, c3OpEnv] at h

/-- C3 (amended): whenever the session is not vault-unlocked (in-memory
vault absent, or decoy mode active), `decapAndSaveKey`, `encapAndSaveKey`
and `changePassword` fail with an error and `getChatKey` returns `null`
(never real key material); when the vault is absent — which is always the
case in decoy mode — the error is the vault-locked one (`Vault locked.`,
resp. `User not fully authenticated.` for `changePassword`), the
decoy-specific error being reachable only in the impossible
decoy-with-vault states. -/
theorem vault_ops_guarded_when_not_unlocked (st : AuthState) (envO : OpEnv) (envC : CPEnv)
    (chatId ct pk oldPw newPw : String)
    (h : st.inMemVault = none ∨ st.isDecoyMode = true) :
    (getChatKey st chatId).1 = none ∧
    isErr (decapAndSaveKey envO st chatId ct).2.1 = true ∧
    isErr (encapAndSaveKey envO st chatId pk).2.1 = true ∧
    isErr (changePassword envC st oldPw newPw).2.1 = true ∧
    (st.inMemVault = none →
      (decapAndSaveKey envO st chatId ct).2.1 = Except.error "Vault locked." ∧
      (encapAndSaveKey envO st chatId pk).2.1 = Except.error "Vault locked." ∧
      (changePassword envC st oldPw newPw).2.1 =
        Except.error "User not fully authenticated.") := by
  refine ⟨?_, ?_, ?_, ?_, ?_⟩
  · rcases h with h | h
    · simp only [getChatKey, h]
      cases st.isDecoyMode <;> simp
    · simp [getChatKey, h]
  · rcases hv : st.inMemVault with _ | v
    · rcases hu : st.currentUser with _ | u <;> simp [decapAndSaveKey, hv, hu, isErr]
    · have hd : st.isDecoyMode = true := by
        rcases h with h | h
        · rw [hv] at h
          cases h
        · exact h
      rcases hu : st.currentUser with _ | u
      · simp [decapAndSaveKey, hv, hu, isErr]
      · simp [decapAndSaveKey, hv, hu, hd, isErr]
  · rcases hv : st.inMemVault with _ | v
    · rcases hu : st.currentUser with _ | u <;> simp [encapAndSaveKey, hv, hu, isErr]
    · have hd : st.isDecoyMode = true := by
        rcases h with h | h
        · rw [hv] at h
          cases h
        · exact h
      rcases hu : st.currentUser with _ | u
      · simp [encapAndSaveKey, hv, hu, isErr]
      · simp [encapAndSaveKey, hv, hu, hd, isErr]
  · rcases hv : st.inMemVault with _ | v
    · rcases hu : st.currentUser with _ | u <;> simp [changePassword, hv, hu, isErr]
    · have hd : st.isDecoyMode = true := by
        rcases h with h | h
        · rw [hv] at h
          cases h
        · exact h
      rcases hu : st.currentUser with _ | u
      · simp [changePassword, hv, hu, isErr]
      · by_cases he : u.email = "" <;> simp [changePassword, hv, hu, hd, he, isErr]
  · intro hv
    rcases hu : st.currentUser with _ | u <;>
      simp [decapAndSaveKey, encapAndSaveKey, changePassword, hv, hu]

theorem vault_ops_guarded_when_not_unlocked_witness :
    (getChatKey c3DecoySt "chat").1 = none ∧
    isErr (decapAndSaveKey c3OpEnv c3DecoySt "chat" "ct").2.1 = true ∧
    isErr (encapAndSaveKey c3OpEnv c3DecoySt "chat" "pk").2.1 = true ∧
    isErr (changePassword ⟨Except.ok (), Except.ok "a", Except.ok "b", Except.ok (),
      Except.ok ()⟩ c3DecoySt "old" "new").2.1 = true ∧
    (c3DecoySt.inMemVault = none →
      (decapAndSaveKey c3OpEnv c3DecoySt "chat" "ct").2.1 = Except.error "Vault locked." ∧
      (encapAndSaveKey c3OpEnv c3DecoySt "chat" "pk").2.1 = Except.error "Vault locked." ∧
      (changePassword ⟨Except.ok (), Except.ok "a", Except.ok "b", Except.ok (),
        Except.ok ()⟩ c3DecoySt "old" "new").2.1 =
          Except.error "User not fully authenticated.") :=
  vault_ops_guarded_when_not_unlocked c3DecoySt c3OpEnv ⟨Except.ok (), Except.ok "a",
    Except.ok "b", Except.ok (), Except.ok ()⟩ "chat" "ct" "pk" "old" "new" (Or.inl rfl)

/-- C2 counterexample: a shared-secret update (`decapAndSaveKey` at an
unlocked state) persists via `updateDoc` a record naming only the
`encryptedSharedSecrets` field; no write covering both
`encryptedPrivateKey` and `encryptedSharedSecrets` occurs. -/
def c2St : AuthState :=
  ⟨some ⟨"u2", "c@x.com", true⟩, none, some ⟨⟨"pw", [1, 2]⟩, "PRIV", []⟩, false⟩

def c2Env : OpEnv := ⟨Except.ok "NEWSECRET", Except.ok ("S", "C"), Except.ok "ENCCT", Except.ok ()⟩

theorem decap_writes_single_field_cex :
    (decapAndSaveKey c2Env c2St "chat1" "kemct").2.2 = [Effect.kemDecap,
      Effect.encryptVaultField "encryptedSharedSecrets"
        (serializeSecrets [("chat1", "NEWSECRET")]),
      Effect.updateVaultDoc ["encryptedSharedSecrets"]] ∧
    Effect.updateVaultDoc ["encryptedPrivateKey", "encryptedSharedSecrets"] ∉
      (decapAndSaveKey c2Env c2St "chat1" "kemct").2.2 := by
  constructor
  · rfl
  · decide

/-- C2 (amended): every shared-secret update (`decapAndSaveKey`,
`encapAndSaveKey`) re-serializes the entire updated map and re-encrypts
it freshly, but persists ONLY the `encryptedSharedSecrets` field of the
vault record (`updateDoc` with that single field); `encryptedPrivateKey`
is left as previously stored rather than being rewritten alongside.  Both
fields are written together only by signup and `changePassword`. -/
theorem sharedSecret_update_writes_only_secrets_field (env : OpEnv) (st : AuthState)
    (v : InMemVault) (u : FireUser) (chatId ct pk ss c1 : String) (sc : String × String)
    (hv : st.inMemVault = some v) (hu : st.currentUser = some u) (hd : st.isDecoyMode = false)
    (hdec : env.decapResult = Except.ok ss) (hencs : env.encSecResult = Except.ok c1)
    (hencap : env.encapResult = Except.ok sc) :
    (decapAndSaveKey env st chatId ct).2.2 = [Effect.kemDecap,
      Effect.encryptVaultField "encryptedSharedSecrets"
        (serializeSecrets (objSet v.sharedSecrets chatId ss)),
      Effect.updateVaultDoc ["encryptedSharedSecrets"]] ∧
    (encapAndSaveKey env st chatId pk).2.2 = [Effect.kemEncap,
      Effect.encryptVaultField "encryptedSharedSecrets"
        (serializeSecrets (objSet v.sharedSecrets chatId sc.1)),
      Effect.updateVaultDoc ["encryptedSharedSecrets"]] := by
  constructor
  · rcases hw : env.updateVault with e | uu <;>
      simp [decapAndSaveKey, hv, hu, hd, hdec, hencs, hw]
  · rcases hw : env.updateVault with e | uu <;>
      simp [encapAndSaveKey, hv, hu, hd, hencap, hencs, hw]

theorem sharedSecret_update_writes_only_secrets_field_witness :
    (decapAndSaveKey c2Env c2St "chat1" "kemct").2.2 = [Effect.kemDecap,
      Effect.encryptVaultField "encryptedSharedSecrets"
        (serializeSecrets (objSet [] "chat1" "NEWSECRET")),
      Effect.updateVaultDoc ["encryptedSharedSecrets"]] ∧
    (encapAndSaveKey c2Env c2St "chat1" "rpk").2.2 = [Effect.kemEncap,
      Effect.encryptVaultField "encryptedSharedSecrets"
        (serializeSecrets (objSet [] "chat1" "S")),
      Effect.updateVaultDoc ["encryptedSharedSecrets"]] :=
  sharedSecret_update_writes_only_secrets_field c2Env c2St ⟨⟨"pw", [1, 2]⟩, "PRIV", []⟩
    ⟨"u2", "c@x.com", true⟩ "chat1" "kemct" "rpk" "NEWSECRET" "ENCCT" ("S", "C")
    rfl rfl rfl rfl rfl rfl

theorem loginReal_unlock_fail (env : LoginEnv) (st : AuthState) (email password : String)
    (tr : List Effect) (user : FireUser) (vault : KeyVault)
    (hsign : env.signIn = Except.ok user)
    (hvault : env.vaultDoc = some vault)
    (hfail : (isErr env.decryptPrivateKey || isErr env.decryptSecrets ||
      isErr env.parseSecrets) = true) :
    (loginReal env st email password tr).1 = emptyState ∧
    (loginReal env st email password tr).2.1 = Except.error "Invalid password." ∧
    (st.isDecoyMode = false →
      Effect.firebaseSignOut ∈ (loginReal env st email password tr).2.2) := by
  have hlog1 : (logout st).1 = emptyState := by
    unfold logout
    split <;> rfl
  have hlog2 : st.isDecoyMode = false → (logout st).2 = [Effect.firebaseSignOut] := by
    intro hd
    simp [logout, hd]
  rcases h1 : env.decryptPrivateKey with e1 | pKey
  · simp only [loginReal, hsign, hvault, h1]
    refine ⟨hlog1, trivial, ?_⟩
    intro hd
    rw [hlog2 hd]
    simp
  · rcases h2 : env.decryptSecrets with e2 | sj
    · simp only [loginReal, hsign, hvault, h1, h2]
      refine ⟨hlog1, trivial, ?_⟩
      intro hd
      rw [hlog2 hd]
      simp
    · rcases h3 : env.parseSecrets with e3 | secrets
      · simp only [loginReal, hsign, hvault, h1, h2, h3]
        refine ⟨hlog1, trivial, ?_⟩
        intro hd
        rw [hlog2 hd]
        simp
      · rw [h1, h2, h3] at hfail
        simp [isErr] at hfail

/-- C5: vault unlock during login is all-or-nothing: if decrypting
`encryptedPrivateKey` or `encryptedSharedSecrets` (or parsing the
secrets JSON) fails, no in-memory vault is installed — the whole session
state is forced back to the cleared state through the `logout()` call
(which performs the external sign-out when no decoy session was active) —
and the failure surfaces to the caller as the authentication error
`Invalid password.`. -/
theorem unlock_all_or_nothing (env : LoginEnv) (st : AuthState) (email password : String)
    (user : FireUser) (vault : KeyVault)
    (hnd : duressHit env password = false)
    (hsign : env.signIn = Except.ok user)
    (hvault : env.vaultDoc = some vault)
    (hfail : (isErr env.decryptPrivateKey || isErr env.decryptSecrets ||
      isErr env.parseSecrets) = true) :
    (login env st email password).1 = emptyState ∧
    (login env st email password).2.1 = Except.error "Invalid password." ∧
    (st.isDecoyMode = false → Effect.firebaseSignOut ∈ (login env st email password).2.2) := by
  have key : ∀ tr, (loginReal env st email password tr).1 = emptyState ∧
      (loginReal env st email password tr).2.1 = Except.error "Invalid password." ∧
      (st.isDecoyMode = false →
        Effect.firebaseSignOut ∈ (loginReal env st email password tr).2.2) :=
    fun tr => loginReal_unlock_fail env st email password tr user vault hsign hvault hfail
  rcases hf : env.findByEmail with e | op
  · simpa only [login, hf] using key _
  · rcases op with _ | p
    · simpa only [login, hf] using key _
    · rcases hdh : p.duressHash with _ | dh
      · simpa only [login, hf, hdh] using key _
      · have hne : (env.hashPw password == dh) = false := by
          have h0 := hnd
          simp only [duressHit, hf, hdh] at h0
          exact h0
        simpa only [login, hf, hdh, hne, Bool.false_eq_true, if_false] using key _

def c5Env : LoginEnv :=
  ⟨Except.ok none, fun _ => "h", Except.ok ⟨"u5", "e5@x.com", true⟩, none,
   some ⟨"encPriv", "encSec"⟩, Except.error (), Except.ok "x", Except.ok []⟩

theorem unlock_all_or_nothing_witness :
    (login c5Env emptyState "e5@x.com" "pw").1 = emptyState ∧
    (login c5Env emptyState "e5@x.com" "pw").2.1 = Except.error "Invalid password." ∧
    Effect.firebaseSignOut ∈ (login c5Env emptyState "e5@x.com" "pw").2.2 := by
  have h := unlock_all_or_nothing c5Env emptyState "e5@x.com" "pw" ⟨"u5", "e5@x.com", true⟩
    ⟨"encPriv", "encSec"⟩ rfl rfl rfl rfl
  exact ⟨h.1, h.2.1, h.2.2 rfl⟩

/-- C6: if `changePassword` fails at any step — reauthentication, either
re-encryption, the vault-record write, or the credential update — the
prior state is left entirely untouched: the in-memory vault keeps the old
master key, private key and secrets map, so the old key material remains
valid for the session. -/
theorem rotation_failure_preserves_vault (env : CPEnv) (st : AuthState) (oldPw newPw : String)
    (hfail : isErr (changePassword env st oldPw newPw).2.1 = true) :
    (changePassword env st oldPw newPw).1 = st := by
  rcases hu : st.currentUser with _ | u
  · simp [changePassword, hu]
  · rcases hv : st.inMemVault with _ | v
    · simp [changePassword, hu, hv]
    · by_cases he : u.email = ""
      · simp [changePassword, hu, hv, he]
      · cases hd : st.isDecoyMode
        · rcases hr : env.reauth with e | r
          · simp [changePassword, hu, hv, he, hd, hr]
          · rcases h1 : env.encPriv with e | c1
            · simp [changePassword, hu, hv, he, hd, hr, h1]
            · rcases h2 : env.encSec with e | c2
              · simp [changePassword, hu, hv, he, hd, hr, h1, h2]
              · rcases h3 : env.updateVault with e | w
                · simp [changePassword, hu, hv, he, hd, hr, h1, h2, h3]
                · rcases h4 : env.updatePw with e | q
                  · simp [changePassword, hu, hv, he, hd, hr, h1, h2, h3, h4]
                  · simp [changePassword, hu, hv, he, hd, hr, h1, h2, h3, h4, isErr] at hfail
        · simp [changePassword, hu, hv, he, hd]

def c6St : AuthState :=
  ⟨some ⟨"u6", "f@x.com", true⟩, none, some ⟨⟨"pwOld", [9]⟩, "PRIV6", [("c", "s")]⟩, false⟩

def c6Env : CPEnv :=
  ⟨Except.error "reauth failed", Except.ok "a", Except.ok "b", Except.ok (), Except.ok ()⟩

theorem rotation_failure_preserves_vault_witness :
    (changePassword c6Env c6St "pwOld" "pwNew").1 = c6St :=
  rotation_failure_preserves_vault c6Env c6St "pwOld" "pwNew" rfl

/-- C4 counterexample: `getSaltForUser` hashes the email exactly as
given, with no lower-casing: `"A@x.com"` and `"a@x.com"` differ only in
letter case (their lower-casings coincide) yet yield different salts. -/
theorem salt_case_sensitive_cex :
    jsToLower "A@x.com" = jsToLower "a@x.com" ∧
    getSaltForUser "A@x.com" ≠ getSaltForUser "a@x.com" := by
  constructor
  · rfl
  · decide

/-- C4 (amended): the salt is a deterministic one-way hash (SHA-256) of
the email exactly as entered — not of its lower-cased form — truncated to
16 bytes: repeated calls on the same email agree (the function is pure),
every salt has exactly 16 bytes, each a byte value below 256, but emails
differing only in letter case yield different salts in general. -/
theorem salt_length_and_range (email : String) :
    (getSaltForUser email).length = 16 ∧
    (getSaltForUser email).all (fun b => b < 256) = true := by
  constructor
  · unfold getSaltForUser
    rw [List.length_take, sha256_length]
    decide
  · unfold getSaltForUser
    rw [List.all_eq_true]
    intro b hb
    have hmem : b ∈ sha256 (utf8Encode email) := List.mem_of_mem_take hb
    simpa using sha256_lt _ b hmem

/-- C7: for every key, IV and string payload, decrypting the packed
ciphertext produced by `encryptWithAES` returns exactly the payload,
assuming only the correctness of the AES-GCM primitive itself (an
audited black box per the spec): the base64/UTF-8 packing, the `:`
framing and the splitting all round-trip. -/
theorem aes_roundtrip {κ : Type} (aesEnc : κ → List Nat → List Nat → List Nat)
    (aesDec : κ → List Nat → List Nat → Option (List Nat)) (key : κ) (iv : List Nat) (p : String)
    (hinv : ∀ m, aesDec key iv (aesEnc key iv m) = some m)
    (henc : ∀ m, (∀ b ∈ m, b < 256) → ∀ b ∈ aesEnc key iv m, b < 256)
    (hiv : ∀ b ∈ iv, b < 256) :
    decryptWithAES aesDec key (encryptWithAES aesEnc key iv p) = Except.ok p := by
  unfold decryptWithAES
  rw [encryptWithAES_split]
  simp only [b64_roundtrip iv hiv, b64_roundtrip _ (henc _ (utf8Encode_lt p)), hinv,
    utf8_roundtrip]

theorem aes_roundtrip_witness :
    decryptWithAES (fun _ _ c => some c) () (encryptWithAES (fun _ _ m => m) () [7] "hi") =
      Except.ok "hi" :=
  aes_roundtrip (fun _ _ m => m) (fun _ _ c => some c) () [7] "hi" (fun _ => rfl)
    (fun _ h => h) (by decide)

/-- C8: `decryptWithAES` rejects any input that does not split on `:`
into exactly two segments with the format error, before any cryptographic
operation: the result is the same for every possible cipher `aesDec`, and
is never a plaintext. -/
theorem decrypt_format_error_before_crypto {κ : Type}
    (aesDec : κ → List Nat → List Nat → Option (List Nat)) (key : κ) (packed : List Char)
    (h : (splitOnColon packed).length ≠ 2) :
    decryptWithAES aesDec key packed = Except.error DecryptError.formatError := by
  unfold decryptWithAES
  rcases hs : splitOnColon packed with _ | ⟨a, _ | ⟨b, _ | ⟨c, t⟩⟩⟩
  · rfl
  · rfl
  · rw [hs] at h
    simp at h
  · rfl

theorem decrypt_format_error_before_crypto_witness :
    decryptWithAES (fun _ _ _ => none) () "abc".data = Except.error DecryptError.formatError :=
  decrypt_format_error_before_crypto (fun _ _ _ => none) () "abc".data (by decide)

end Photon
